import Mathlib

/-!
# Verification of the ISP-metrics chart-data pivot (`generate_charts.py`)

This file gives a shallow embedding of the pivot/reshape logic of
`generate_charts.py` (function `prepare_chart_data`) together with the
empty-metrics guard of `generate_html_dashboard`, and proves or refutes the
frozen specification claims about them.

Modelling conventions:
* Python strings are modelled as `List Char` (`Str`); `s[:8]` is `List.take 8`,
  f-string concatenation is `++`, and the truthiness test `if timestamp:` is
  the test `t ≠ []`.
* JSON numbers are modelled as `ℚ`; Python's true division `/ 1000` is exact
  rational division.
* A dict field that may be absent or `null` is an `Option`; `dict.get(k, d)`
  is `Option.getD`.
* Python dicts used as mutable maps (`site_id_to_name`, `name_counts`,
  `timestamp_data`, and the five metric tables) are modelled as functions
  `Str → Option _` updated pointwise (`dupdate`), which matches dict
  overwrite semantics.
* The Python `set` of timestamps is a duplicate-free list (`addTS` inserts
  only unseen elements); `sorted(...)` is the insertion sort `sortTS` over the
  character-wise lexicographic comparison `strLt`, which is Python's string
  order.
* The five parallel `append` loops of pass 2 become five `List.map`s over the
  timestamp axis (`siteRow`); the per-iteration appends are independent, so
  the final lists are identical.
-/

/-- Python strings, modelled as their character sequences. -/
abbrev Str := List Char

/-- Character list of a Lean string literal (used to write concrete inputs). -/
def str (s : String) : Str := s.data

/-- A WAN measurement bundle: the value-bearing keys read by pass 2 of
`prepare_chart_data`.  `none` covers both an absent key and an explicit
JSON `null` (both make `dict.get` return `None`). -/
structure Bundle where
  avgLatency : Option ℚ
  download_kbps : Option ℚ
  upload_kbps : Option ℚ
  packetLoss : Option ℚ
  uptime : Option ℚ
deriving DecidableEq, Repr

/-- The empty dict `{}` used when a period has no usable data. -/
def emptyBundle : Bundle := ⟨none, none, none, none, none⟩

/-- A period's `data` object: it either carries a nested `wan` sub-object
(`wan = some _`) or is itself the flat measurement bundle. -/
structure DataObj where
  wan : Option Bundle
  flat : Bundle
deriving DecidableEq, Repr

/-- One entry of a site's `periods` list: `metricTime` (absent key and the
key mapped to a string are distinguished) and the optional `data` object. -/
structure Period where
  metricTime : Option Str
  data : Option DataObj
deriving DecidableEq, Repr

/-- One element of the `metrics` list: a site record. -/
structure SiteMetric where
  siteId : Option Str
  periods : List Period
deriving DecidableEq, Repr

instance : Inhabited SiteMetric := ⟨⟨none, []⟩⟩

instance : Inhabited Period := ⟨⟨none, none⟩⟩

/-- `site_metric.get('siteId', 'Unknown')`. -/
def effSiteId (sm : SiteMetric) : Str := sm.siteId.getD (str "Unknown")

/-- Pointwise dict update: `d[k] = v`. -/
def dupdate {α : Type} (f : Str → Option α) (k : Str) (v : α) : Str → Option α :=
  fun k' => if k' = k then some v else f k'

/-- Resolution of a site's base display name (lines 117-122): look the
identifier up in `sites_data`; if absent, fall back to
`f"Site-{site_id[:8]}"`. -/
def baseName (sites_data : Str → Option Str) (id : Str) : Str :=
  match sites_data id with
  | some n => n
  | none => str "Site-" ++ id.take 8

/-- The disambiguation suffix `f" ({site_id[:8]})"` appended to repeat
occurrences of a base name (line 127). -/
def sfx (id : Str) : Str := str " (" ++ id.take 8 ++ str ")"

/-- One step of the timestamp-collection part of pass 1 (lines 141-144):
`timestamp = period.get('metricTime', ''); if timestamp: set.add(timestamp)`,
with the set modelled as a duplicate-free list. -/
def addTS (acc : List Str) (p : Period) : List Str :=
  let t := p.metricTime.getD []
  if t = [] then acc else if t ∈ acc then acc else acc ++ [t]

/-- The mutable state threaded through pass 1 of `prepare_chart_data`. -/
structure Pass1State where
  site_id_to_name : Str → Option Str
  name_counts : Str → Option Nat
  sites : List Str
  all_timestamps : List Str

/-- One iteration of pass 1 (lines 116-144) for a single site record:
resolve the base name, disambiguate repeats with the identifier-prefix
suffix, record the id→name mapping, append to `sites`, and collect the
record's timestamps. -/
def pass1Step (sites_data : Str → Option Str) (st : Pass1State) (sm : SiteMetric) :
    Pass1State :=
  match st.name_counts (baseName sites_data (effSiteId sm)) with
  | some c =>
      { site_id_to_name := dupdate st.site_id_to_name (effSiteId sm)
          (baseName sites_data (effSiteId sm) ++ sfx (effSiteId sm))
        name_counts := dupdate st.name_counts (baseName sites_data (effSiteId sm)) (c + 1)
        sites := st.sites ++ [baseName sites_data (effSiteId sm) ++ sfx (effSiteId sm)]
        all_timestamps := sm.periods.foldl addTS st.all_timestamps }
  | none =>
      { site_id_to_name := dupdate st.site_id_to_name (effSiteId sm)
          (baseName sites_data (effSiteId sm))
        name_counts := dupdate st.name_counts (baseName sites_data (effSiteId sm)) 1
        sites := st.sites ++ [baseName sites_data (effSiteId sm)]
        all_timestamps := sm.periods.foldl addTS st.all_timestamps }

/-- Pass 1 of `prepare_chart_data` over the whole metrics list. -/
def pass1 (sites_data : Str → Option Str) (metrics : List SiteMetric) : Pass1State :=
  metrics.foldl (pass1Step sites_data) ⟨fun _ => none, fun _ => none, [], []⟩

/-- Python's string `<`: character-wise lexicographic comparison. -/
def strLt : Str → Str → Bool
  | [], [] => false
  | [], _ :: _ => true
  | _ :: _, [] => false
  | a :: as, b :: bs => if a < b then true else if b < a then false else strLt as bs

/-- Ordered insertion with respect to `strLt`. -/
def insertTS (t : Str) : List Str → List Str
  | [] => [t]
  | x :: xs => if strLt t x then t :: x :: xs else x :: insertTS t xs

/-- `sorted(...)` over the collected timestamps (line 147). -/
def sortTS (l : List Str) : List Str := l.foldr insertTS []

/-- Locating the measurement bundle of a period (lines 177-186): no `data`
key gives the empty dict; a `data` object containing the key `wan` gives the
nested sub-object; otherwise the `data` object itself is the bundle. -/
def bundleOfPeriod (p : Period) : Bundle :=
  match p.data with
  | none => emptyBundle
  | some d =>
      match d.wan with
      | some w => w
      | none => d.flat

/-- One iteration of the per-site `timestamp_data` construction
(lines 174-189): store the bundle under its timestamp unless the timestamp
is missing or empty. -/
def tsMapStep (m : Str → Option Bundle) (p : Period) : Str → Option Bundle :=
  let t := p.metricTime.getD []
  if t = [] then m else dupdate m t (bundleOfPeriod p)

/-- The per-site map `timestamp_data` built in pass 2. -/
def tsMap (periods : List Period) : Str → Option Bundle :=
  periods.foldl tsMapStep (fun _ => none)

/-- Latency extraction (line 211): `get('avgLatency')` with `None` mapped
to `0`. -/
def latVal (w : Bundle) : ℚ := w.avgLatency.getD 0

/-- Download extraction (lines 214-215): `get('download_kbps', 0)`, then
`(x / 1000) if x else 0` — falsy (absent, null, zero) gives `0`. -/
def dlVal (w : Bundle) : ℚ :=
  match w.download_kbps with
  | none => 0
  | some v => if v = 0 then 0 else v / 1000

/-- Upload extraction (lines 218-219), same convention as download. -/
def upVal (w : Bundle) : ℚ :=
  match w.upload_kbps with
  | none => 0
  | some v => if v = 0 then 0 else v / 1000

/-- Packet-loss extraction (line 222): `None` mapped to `0`. -/
def plVal (w : Bundle) : ℚ := w.packetLoss.getD 0

/-- Uptime extraction (line 225): `None` mapped to `0`. -/
def utVal (w : Bundle) : ℚ := w.uptime.getD 0

/-- The value sequence appended for one site and one metric in the
timestamp loop of pass 2 (lines 207-226): for each axis timestamp, look the
site's bundle up (empty dict if absent) and extract the metric. -/
def siteRow (f : Bundle → ℚ) (m : Str → Option Bundle) (tss : List Str) : List ℚ :=
  tss.map (fun t => f ((m t).getD emptyBundle))

/-- The pivot table returned by `prepare_chart_data`. -/
structure ChartData where
  sites : List Str
  timestamps : List Str
  latency : Str → Option (List ℚ)
  download : Str → Option (List ℚ)
  upload : Str → Option (List ℚ)
  packet_loss : Str → Option (List ℚ)
  uptime : Str → Option (List ℚ)

/-- The display name a record is processed under in pass 2 (lines 154-158):
the pass-1 map entry for its identifier, with the (unreachable) truncated-id
fallback. -/
def pass2Name (idmap : Str → Option Str) (sm : SiteMetric) : Str :=
  (idmap (effSiteId sm)).getD (str "Site-" ++ (effSiteId sm).take 8)

/-- One iteration of pass 2 (lines 153-226) for a single site record:
(re)initialize and fill the five value sequences stored under the record's
display name. -/
def pass2Step (tss : List Str) (idmap : Str → Option Str) (cd : ChartData)
    (sm : SiteMetric) : ChartData :=
  let site_name := pass2Name idmap sm
  let m := tsMap sm.periods
  { cd with
    latency := dupdate cd.latency site_name (siteRow latVal m tss)
    download := dupdate cd.download site_name (siteRow dlVal m tss)
    upload := dupdate cd.upload site_name (siteRow upVal m tss)
    packet_loss := dupdate cd.packet_loss site_name (siteRow plVal m tss)
    uptime := dupdate cd.uptime site_name (siteRow utVal m tss) }

/-- `prepare_chart_data` (lines 84-245): pass 1 (naming and timestamp
collection), the timestamp sort, then pass 2 (value extraction). -/
def prepare_chart_data (metrics : List SiteMetric) (sites_data : Str → Option Str) :
    ChartData :=
  let st := pass1 sites_data metrics
  let tss := sortTS st.all_timestamps
  metrics.foldl (pass2Step tss st.site_id_to_name)
    ⟨st.sites, tss, fun _ => none, fun _ => none, fun _ => none, fun _ => none,
      fun _ => none⟩

/-! ## The dashboard generator's empty-metrics guard -/

/-- The `data` object inside the metrics file's `response`. -/
structure DataSection where
  metrics : Option (List SiteMetric)

/-- The `response` object of the metrics file. -/
structure ResponseObj where
  data : Option DataSection

/-- The loaded metrics JSON document (only the keys the guard reads). -/
structure MetricsData where
  response : Option ResponseObj

/-- Extraction of the metrics array (lines 50-52):
`metrics_data.get('response', {}).get('data', {}).get('metrics', [])`. -/
def extractMetrics (md : MetricsData) : List SiteMetric :=
  match md.response with
  | none => []
  | some r =>
      match r.data with
      | none => []
      | some d => d.metrics.getD []

/-- The semantic content of the rendered HTML document: the embedded pivot
table plus the metadata taken from the metrics document.  The fixed
HTML/CSS/script template text splices these in injectively, so the written
file is modelled by this structure. -/
structure Dashboard where
  chart : ChartData
  meta : MetricsData

/-- `generate_html_dashboard` (lines 49-81), modelled as a state transformer
on the output file's contents (`prev` = contents before the call, `none` if
the file does not exist).  Returns the file contents after the call and
whether the `ERROR: No metrics found` message was printed.  When the
extracted metrics array is empty the function prints the error and returns
before the write, leaving the file untouched. -/
def generate_html_dashboard (md : MetricsData) (sites_data : Str → Option Str)
    (prev : Option Dashboard) : Option Dashboard × Bool :=
  if (extractMetrics md).isEmpty then (prev, true)
  else (some ⟨prepare_chart_data (extractMetrics md) sites_data, md⟩, false)

/-! ## Specification-side definitions used to state the claims -/

/-- The base name resolved for a record. -/
def recBase (sd : Str → Option Str) (sm : SiteMetric) : Str :=
  baseName sd (effSiteId sm)

/-- Base names of a list of records, in order. -/
def basesOf (sd : Str → Option Str) (metrics : List SiteMetric) : List Str :=
  metrics.map (recBase sd)

/-- The final display name assigned to a record given the base names already
seen: the first occurrence of a base name keeps the bare name, a repeat
occurrence gets the parenthesized identifier-prefix suffix. -/
def uniqueNameOf (sd : Str → Option Str) (seen : List Str) (sm : SiteMetric) : Str :=
  if recBase sd sm ∈ seen then recBase sd sm ++ sfx (effSiteId sm) else recBase sd sm

/-- The (identifier, final display name) pairs produced by pass 1, computed
by the same left-to-right discipline with an explicit list of seen base
names. -/
def sitePairsAux (sd : Str → Option Str) : List Str → List SiteMetric → List (Str × Str)
  | _, [] => []
  | seen, sm :: rest =>
      (effSiteId sm, uniqueNameOf sd seen sm) ::
        sitePairsAux sd (seen ++ [recBase sd sm]) rest

/-- The (identifier, final display name) pairs of a metrics list. -/
def sitePairs (sd : Str → Option Str) (metrics : List SiteMetric) : List (Str × Str) :=
  sitePairsAux sd [] metrics

/-- The value the association list assigns to a key when the *last* binding
wins (dict-overwrite semantics). -/
def lookupLast : List (Str × Str) → Str → Option Str
  | [], _ => none
  | (k, v) :: rest, id =>
      match lookupLast rest id with
      | some r => some r
      | none => if id = k then some v else none

/-- The bundle of the last period in input order whose (non-empty effective)
timestamp equals `t`. -/
def lastMatch (t : Str) : List Period → Option Bundle
  | [] => none
  | p :: rest =>
      match lastMatch t rest with
      | some b => some b
      | none => if p.metricTime.getD [] = t then some (bundleOfPeriod p) else none

/-- A timestamp occurs in a metrics list: it is non-empty and is the
`metricTime` of some period of some record. -/
def tsOccurs (t : Str) (metrics : List SiteMetric) : Prop :=
  t ≠ [] ∧ ∃ sm ∈ metrics, ∃ p ∈ sm.periods, p.metricTime = some t

/-- A record with every empty-timestamped period removed (both an absent
`metricTime` and an explicit empty string). -/
def dropEmptyPeriods (sm : SiteMetric) : SiteMetric :=
  ⟨sm.siteId, sm.periods.filter (fun p => !(p.metricTime.getD []).isEmpty)⟩

/-- The §3 per-metric invariant for one record: the mapping contains the
record's display name, the row has exactly one entry per axis timestamp, and
every position where the record has no data for the corresponding timestamp
holds `0`. -/
def metricOk (cd : ChartData) (sm : SiteMetric) (name : Str)
    (proj : ChartData → Str → Option (List ℚ)) : Prop :=
  ∃ row, proj cd name = some row ∧ row.length = cd.timestamps.length ∧
    ∀ k, k < cd.timestamps.length → tsMap sm.periods (cd.timestamps.getD k []) = none →
      row.getD k 0 = 0

/-- The bundle pass 2 uses at axis position `k`: the site's map looked up at
the `k`-th axis timestamp, the empty dict if absent. -/
def bundleAt (m : Str → Option Bundle) (tss : List Str) (k : Nat) : Bundle :=
  (m (tss.getD k [])).getD emptyBundle

/-! ## String helper lemmas -/

/-- The disambiguation suffix written with its leading characters exposed. -/
lemma sfx_cons (id : Str) : sfx id = ' ' :: '(' :: (id.take 8 ++ [')']) := rfl

/-- A name is never equal to itself with the suffix appended. -/
lemma self_ne_append_sfx (b id : Str) : b ≠ b ++ sfx id := by
  intro h
  have hlen := congrArg List.length h
  simp [sfx_cons] at hlen

/-- A parenthesis-free name differs from any suffixed name. -/
lemma bare_ne_sfxed (b1 b2 id : Str) (h1 : '(' ∉ b1) : b1 ≠ b2 ++ sfx id := by
  intro h
  apply h1
  rw [h, sfx_cons]
  simp

/-- Splitting an equality of two strings that are each a parenthesis-free
part followed by `" ("`: the parts agree. -/
lemma paren_split : ∀ (b1 b2 r1 r2 : List Char), '(' ∉ b1 → '(' ∉ b2 →
    b1 ++ ' ' :: '(' :: r1 = b2 ++ ' ' :: '(' :: r2 → b1 = b2 ∧ r1 = r2
  | [], [], r1, r2, _, _, h => by
      simp only [List.nil_append] at h
      exact ⟨rfl, by injection h with _ h'; injection h' with _ h''⟩
  | [], c :: bs, r1, r2, _, h2, h => by
      simp only [List.nil_append, List.cons_append] at h
      injection h with hc ht
      cases bs with
      | nil =>
          simp only [List.nil_append] at ht
          injection ht with hp _
          exact absurd hp (by decide)
      | cons c' bs' =>
          simp only [List.cons_append] at ht
          injection ht with hp _
          exact absurd (List.mem_cons_of_mem _ (hp ▸ List.mem_cons_self c' bs'))
            h2
  | c :: bs, [], r1, r2, h1, _, h => by
      simp only [List.nil_append, List.cons_append] at h
      injection h with hc ht
      cases bs with
      | nil =>
          simp only [List.nil_append] at ht
          injection ht with hp _
          exact absurd hp.symm (by decide)
      | cons c' bs' =>
          simp only [List.cons_append] at ht
          injection ht with hp _
          exact absurd (List.mem_cons_of_mem _ (hp.symm ▸ List.mem_cons_self c' bs'))
            h1
  | c1 :: bs1, c2 :: bs2, r1, r2, h1, h2, h => by
      simp only [List.cons_append] at h
      injection h with hc ht
      have hb1 : '(' ∉ bs1 := fun hm => h1 (List.mem_cons_of_mem _ hm)
      have hb2 : '(' ∉ bs2 := fun hm => h2 (List.mem_cons_of_mem _ hm)
      obtain ⟨hb, hr⟩ := paren_split bs1 bs2 r1 r2 hb1 hb2 ht
      exact ⟨by rw [hc, hb], hr⟩

/-- Equality of two suffixed names with parenthesis-free bases forces both
the bases and the identifier prefixes to agree. -/
lemma append_sfx_inj (b1 b2 id1 id2 : Str) (h1 : '(' ∉ b1) (h2 : '(' ∉ b2)
    (h : b1 ++ sfx id1 = b2 ++ sfx id2) : b1 = b2 ∧ id1.take 8 = id2.take 8 := by
  rw [sfx_cons, sfx_cons] at h
  obtain ⟨hb, hr⟩ := paren_split b1 b2 _ _ h1 h2 h
  refine ⟨hb, ?_⟩
  have := List.append_left_inj [')'] |>.mp hr
  exact this

/-! ## Order facts for the lexicographic comparison -/

lemma strLt_irrefl : ∀ a : Str, strLt a a = false
  | [] => rfl
  | c :: as => by simp [strLt, strLt_irrefl as]

lemma strLt_trans : ∀ a b c : Str, strLt a b = true → strLt b c = true →
    strLt a c = true
  | _, [], [], _, h2 => by simp [strLt] at h2
  | _, _ :: _, [], _, h2 => by simp [strLt] at h2
  | [], [], _ :: _, h1, _ => by simp [strLt] at h1
  | x :: _, [], _ :: _, h1, _ => by simp [strLt] at h1
  | [], _ :: _, _ :: _, _, _ => rfl
  | x :: xs, y :: ys, z :: zs, h1, h2 => by
      simp only [strLt] at h1 h2 ⊢
      by_cases hxy : x < y
      · by_cases hyz : y < z
        · rw [if_pos (lt_trans hxy hyz)]
        · by_cases hzy : z < y
          · rw [if_neg hyz, if_pos hzy] at h2
            exact absurd h2 (by decide)
          · have hyzeq : y = z := le_antisymm (not_lt.mp hzy) (not_lt.mp hyz)
            subst hyzeq
            rw [if_pos hxy]
      · by_cases hyx : y < x
        · rw [if_neg hxy, if_pos hyx] at h1
          exact absurd h1 (by decide)
        · have hxyeq : x = y := le_antisymm (not_lt.mp hyx) (not_lt.mp hxy)
          subst hxyeq
          rw [if_neg hxy, if_neg hxy] at h1
          by_cases hxz : x < z
          · rw [if_pos hxz]
          · by_cases hzx : z < x
            · rw [if_neg hxz, if_pos hzx] at h2
              exact absurd h2 (by decide)
            · rw [if_neg hxz, if_neg hzx] at h2
              rw [if_neg hxz, if_neg hzx]
              exact strLt_trans xs ys zs h1 h2

lemma strLt_of_ne : ∀ a b : Str, a ≠ b → strLt a b = true ∨ strLt b a = true
  | [], [], h => absurd rfl h
  | [], _ :: _, _ => Or.inl rfl
  | _ :: _, [], _ => Or.inr rfl
  | x :: xs, y :: ys, h => by
      rcases lt_trichotomy x y with hxy | hxy | hxy
      · exact Or.inl (by simp [strLt, hxy])
      · subst hxy
        have hne : xs ≠ ys := fun he => h (by rw [he])
        rcases strLt_of_ne xs ys hne with h' | h'
        · exact Or.inl (by simp [strLt, h'])
        · exact Or.inr (by simp [strLt, h'])
      · exact Or.inr (by simp [strLt, hxy])

/-! ## Insertion sort lemmas -/

lemma mem_insertTS (y t : Str) : ∀ l : List Str, y ∈ insertTS t l ↔ y = t ∨ y ∈ l
  | [] => by simp [insertTS]
  | x :: xs => by
      simp only [insertTS]
      by_cases h : strLt t x
      · rw [if_pos h]
        simp only [List.mem_cons]
      · rw [if_neg h]
        simp only [List.mem_cons, mem_insertTS y t xs]
        tauto

lemma pairwise_insertTS (t : Str) : ∀ l : List Str,
    l.Pairwise (fun a b => strLt a b = true) → t ∉ l →
    (insertTS t l).Pairwise (fun a b => strLt a b = true)
  | [], _, _ => by simp [insertTS]
  | x :: xs, hp, ht => by
      simp only [insertTS]
      rcases List.pairwise_cons.mp hp with ⟨hx, hxs⟩
      by_cases h : strLt t x
      · rw [if_pos h]
        refine List.pairwise_cons.mpr ⟨?_, hp⟩
        intro y hy
        rcases List.mem_cons.mp hy with rfl | hy'
        · exact h
        · exact strLt_trans t x y h (hx y hy')
      · have htx : t ≠ x := fun he => ht (he ▸ List.mem_cons_self x xs)
        have hxt : strLt x t = true := by
          rcases strLt_of_ne t x htx with h' | h'
          · exact absurd h' h
          · exact h'
        rw [if_neg h]
        refine List.pairwise_cons.mpr ⟨?_, ?_⟩
        · intro y hy
          rcases (mem_insertTS y t xs).mp hy with rfl | hy'
          · exact hxt
          · exact hx y hy'
        · exact pairwise_insertTS t xs hxs
            (fun hm => ht (List.mem_cons_of_mem x hm))

lemma mem_sortTS (y : Str) : ∀ l : List Str, y ∈ sortTS l ↔ y ∈ l
  | [] => Iff.rfl
  | x :: xs => by
      show y ∈ insertTS x (sortTS xs) ↔ _
      rw [mem_insertTS, mem_sortTS y xs]
      simp

lemma pairwise_sortTS : ∀ l : List Str, l.Nodup →
    (sortTS l).Pairwise (fun a b => strLt a b = true)
  | [], _ => List.Pairwise.nil
  | x :: xs, h => by
      rcases List.nodup_cons.mp h with ⟨hx, hxs⟩
      show (insertTS x (sortTS xs)).Pairwise _
      exact pairwise_insertTS x (sortTS xs) (pairwise_sortTS xs hxs)
        (fun hm => hx ((mem_sortTS x xs).mp hm))

lemma nodup_sortTS (l : List Str) (h : l.Nodup) : (sortTS l).Nodup := by
  refine (pairwise_sortTS l h).imp ?_
  intro a b hab he
  rw [he] at hab
  simp [strLt_irrefl] at hab

/-! ## Timestamp collection lemmas (pass 1) -/

lemma mem_addTS (acc : List Str) (p : Period) (t : Str) :
    t ∈ addTS acc p ↔ t ∈ acc ∨ (t ≠ [] ∧ p.metricTime = some t) := by
  unfold addTS
  cases hmt : p.metricTime with
  | none =>
      simp
  | some s =>
      simp only [Option.getD_some]
      by_cases hs : s = []
      · subst hs
        simp
      · rw [if_neg hs]
        by_cases hmem : s ∈ acc
        · rw [if_pos hmem]
          constructor
          · intro h
            exact Or.inl h
          · rintro (h | ⟨-, h⟩)
            · exact h
            · injection h with h
              exact h ▸ hmem
        · rw [if_neg hmem]
          simp only [List.mem_append, List.mem_singleton]
          constructor
          · rintro (h | rfl)
            · exact Or.inl h
            · exact Or.inr ⟨hs, rfl⟩
          · rintro (h | ⟨-, h⟩)
            · exact Or.inl h
            · injection h with h
              subst h
              exact Or.inr rfl

lemma nodup_addTS (acc : List Str) (p : Period) (h : acc.Nodup) :
    (addTS acc p).Nodup := by
  unfold addTS
  by_cases h1 : p.metricTime.getD [] = []
  · rw [if_pos h1]
    exact h
  · rw [if_neg h1]
    by_cases h2 : p.metricTime.getD [] ∈ acc
    · rw [if_pos h2]
      exact h
    · rw [if_neg h2]
      rw [List.nodup_append]
      exact ⟨h, List.nodup_singleton _, by simpa using fun hmem => h2 hmem⟩

lemma mem_foldl_addTS : ∀ (ps : List Period) (acc : List Str) (t : Str),
    t ∈ ps.foldl addTS acc ↔
      t ∈ acc ∨ (t ≠ [] ∧ ∃ p ∈ ps, p.metricTime = some t)
  | [], acc, t => by simp
  | p :: ps, acc, t => by
      simp only [List.foldl_cons]
      rw [mem_foldl_addTS ps (addTS acc p) t, mem_addTS]
      simp only [List.mem_cons]
      constructor
      · rintro ((h | ⟨hne, hp⟩) | ⟨hne, q, hq, hmt⟩)
        · exact Or.inl h
        · exact Or.inr ⟨hne, p, Or.inl rfl, hp⟩
        · exact Or.inr ⟨hne, q, Or.inr hq, hmt⟩
      · rintro (h | ⟨hne, q, (rfl | hq), hmt⟩)
        · exact Or.inl (Or.inl h)
        · exact Or.inl (Or.inr ⟨hne, hmt⟩)
        · exact Or.inr ⟨hne, q, hq, hmt⟩

lemma nodup_foldl_addTS : ∀ (ps : List Period) (acc : List Str), acc.Nodup →
    (ps.foldl addTS acc).Nodup
  | [], _, h => h
  | p :: ps, acc, h => nodup_foldl_addTS ps (addTS acc p) (nodup_addTS acc p h)

/-! ## Per-site timestamp map lemmas (pass 2) -/

lemma foldl_tsMapStep_char : ∀ (ps : List Period) (m : Str → Option Bundle) (t : Str),
    t ≠ [] →
    (ps.foldl tsMapStep m) t =
      match lastMatch t ps with
      | some b => some b
      | none => m t
  | [], m, t, _ => rfl
  | p :: ps, m, t, ht => by
      simp only [List.foldl_cons, lastMatch]
      rw [foldl_tsMapStep_char ps (tsMapStep m p) t ht]
      cases lastMatch t ps with
      | some b => rfl
      | none =>
          simp only [tsMapStep]
          by_cases h1 : p.metricTime.getD [] = []
          · rw [if_pos h1]
            rw [if_neg (fun he : p.metricTime.getD [] = t => ht (he ▸ h1.symm ▸ h1))]
          · rw [if_neg h1]
            unfold dupdate
            by_cases h2 : t = p.metricTime.getD []
            · rw [if_pos h2, if_pos h2.symm]
            · rw [if_neg h2, if_neg (fun he : p.metricTime.getD [] = t => h2 he.symm)]

/-- Pass 2's per-site dict holds, for every non-empty timestamp, the bundle
of the last period in input order bearing that timestamp. -/
lemma tsMap_eq_lastMatch (ps : List Period) (t : Str) (ht : t ≠ []) :
    tsMap ps t = lastMatch t ps := by
  unfold tsMap
  rw [foldl_tsMapStep_char ps _ t ht]
  cases lastMatch t ps <;> rfl

/-! ## Invariance under removing empty-timestamped periods -/

lemma addTS_empty (acc : List Str) (p : Period) (h : p.metricTime.getD [] = []) :
    addTS acc p = acc := by
  unfold addTS
  rw [if_pos h]

lemma tsMapStep_empty (m : Str → Option Bundle) (p : Period)
    (h : p.metricTime.getD [] = []) : tsMapStep m p = m := by
  unfold tsMapStep
  rw [if_pos h]

lemma keepPeriod_iff (p : Period) :
    (!(p.metricTime.getD []).isEmpty) = true ↔ p.metricTime.getD [] ≠ [] := by
  cases h : p.metricTime.getD [] <;> simp [h]

lemma foldl_addTS_filter : ∀ (ps : List Period) (acc : List Str),
    (ps.filter (fun p => !(p.metricTime.getD []).isEmpty)).foldl addTS acc =
      ps.foldl addTS acc
  | [], _ => rfl
  | p :: ps, acc => by
      rw [List.filter_cons]
      by_cases h : (!(p.metricTime.getD []).isEmpty) = true
      · rw [if_pos h]
        simp only [List.foldl_cons]
        exact foldl_addTS_filter ps (addTS acc p)
      · rw [if_neg h]
        simp only [List.foldl_cons]
        have hemp : p.metricTime.getD [] = [] := by
          by_contra hne
          exact h ((keepPeriod_iff p).mpr hne)
        rw [addTS_empty acc p hemp]
        exact foldl_addTS_filter ps acc

lemma foldl_tsMapStep_filter : ∀ (ps : List Period) (m : Str → Option Bundle),
    (ps.filter (fun p => !(p.metricTime.getD []).isEmpty)).foldl tsMapStep m =
      ps.foldl tsMapStep m
  | [], _ => rfl
  | p :: ps, m => by
      rw [List.filter_cons]
      by_cases h : (!(p.metricTime.getD []).isEmpty) = true
      · rw [if_pos h]
        simp only [List.foldl_cons]
        exact foldl_tsMapStep_filter ps (tsMapStep m p)
      · rw [if_neg h]
        simp only [List.foldl_cons]
        have hemp : p.metricTime.getD [] = [] := by
          by_contra hne
          exact h ((keepPeriod_iff p).mpr hne)
        rw [tsMapStep_empty m p hemp]
        exact foldl_tsMapStep_filter ps m

lemma tsMap_dropEmpty (sm : SiteMetric) :
    tsMap (dropEmptyPeriods sm).periods = tsMap sm.periods := by
  unfold tsMap dropEmptyPeriods
  exact foldl_tsMapStep_filter sm.periods _

/-! ## Pass 1 characterization -/

lemma recBase_eq (sd : Str → Option Str) (sm : SiteMetric) :
    recBase sd sm = baseName sd (effSiteId sm) := rfl

lemma basesOf_cons (sd : Str → Option Str) (sm : SiteMetric) (l : List SiteMetric) :
    basesOf sd (sm :: l) = recBase sd sm :: basesOf sd l := rfl

lemma pass1Step_all_timestamps (sd : Str → Option Str) (st : Pass1State)
    (sm : SiteMetric) :
    (pass1Step sd st sm).all_timestamps = sm.periods.foldl addTS st.all_timestamps := by
  unfold pass1Step
  cases h : st.name_counts (baseName sd (effSiteId sm)) <;> rfl

lemma isSome_dupdate {α : Type} (f : Str → Option α) (k : Str) (v : α) (b : Str) :
    ((dupdate f k v) b).isSome = true ↔ b = k ∨ (f b).isSome = true := by
  unfold dupdate
  by_cases h : b = k
  · rw [if_pos h]
    simp [h]
  · rw [if_neg h]
    simp [h]

lemma pass1Step_char (sd : Str → Option Str) (st : Pass1State) (sm : SiteMetric)
    (seen : List Str) (hc : ∀ b, (st.name_counts b).isSome = true ↔ b ∈ seen) :
    (pass1Step sd st sm).sites = st.sites ++ [uniqueNameOf sd seen sm]
    ∧ (pass1Step sd st sm).site_id_to_name
        = dupdate st.site_id_to_name (effSiteId sm) (uniqueNameOf sd seen sm)
    ∧ ∀ b, ((pass1Step sd st sm).name_counts b).isSome = true ↔
        b ∈ seen ++ [recBase sd sm] := by
  unfold pass1Step uniqueNameOf
  cases h : st.name_counts (baseName sd (effSiteId sm)) with
  | some c =>
      have hmem : recBase sd sm ∈ seen := by
        rw [← hc (recBase sd sm)]
        rw [recBase_eq, h]
        rfl
      rw [if_pos hmem]
      refine ⟨rfl, rfl, ?_⟩
      intro b
      rw [isSome_dupdate, hc b, List.mem_append, List.mem_singleton, recBase_eq]
      tauto
  | none =>
      have hmem : recBase sd sm ∉ seen := by
        rw [← hc (recBase sd sm)]
        rw [recBase_eq, h]
        simp
      rw [if_neg hmem]
      refine ⟨rfl, rfl, ?_⟩
      intro b
      rw [isSome_dupdate, hc b, List.mem_append, List.mem_singleton, recBase_eq]
      tauto

lemma pass1_fold_char (sd : Str → Option Str) :
    ∀ (l : List SiteMetric) (st : Pass1State) (seen : List Str),
    (∀ b, (st.name_counts b).isSome = true ↔ b ∈ seen) →
    (l.foldl (pass1Step sd) st).sites
        = st.sites ++ (sitePairsAux sd seen l).map Prod.snd
    ∧ ∀ id, (l.foldl (pass1Step sd) st).site_id_to_name id =
        match lookupLast (sitePairsAux sd seen l) id with
        | some n => some n
        | none => st.site_id_to_name id
  | [], st, seen, _ => by
      refine ⟨by simp [sitePairsAux], fun id => ?_⟩
      simp [sitePairsAux, lookupLast]
  | sm :: rest, st, seen, hc => by
      obtain ⟨hsites, hid, hcounts⟩ := pass1Step_char sd st sm seen hc
      obtain ⟨ih_sites, ih_id⟩ :=
        pass1_fold_char sd rest (pass1Step sd st sm) (seen ++ [recBase sd sm]) hcounts
      constructor
      · rw [List.foldl_cons, ih_sites, hsites]
        simp [sitePairsAux, List.append_assoc]
      · intro id
        rw [List.foldl_cons, ih_id id]
        show _ = match lookupLast ((effSiteId sm, uniqueNameOf sd seen sm)
            :: sitePairsAux sd (seen ++ [recBase sd sm]) rest) id with
          | some n => some n
          | none => st.site_id_to_name id
        cases hl : lookupLast (sitePairsAux sd (seen ++ [recBase sd sm]) rest) id with
        | some n =>
            simp [lookupLast, hl]
        | none =>
            simp only [lookupLast, hl]
            rw [hid]
            unfold dupdate
            by_cases hq : id = effSiteId sm
            · rw [if_pos hq, if_pos hq]
            · rw [if_neg hq, if_neg hq]

lemma pass1_sites_eq (sd : Str → Option Str) (metrics : List SiteMetric) :
    (pass1 sd metrics).sites = (sitePairs sd metrics).map Prod.snd := by
  have h := pass1_fold_char sd metrics ⟨fun _ => none, fun _ => none, [], []⟩ []
    (by intro b; simp)
  rw [pass1, h.1, sitePairs]
  rfl

lemma pass1_idmap_eq (sd : Str → Option Str) (metrics : List SiteMetric) (id : Str) :
    (pass1 sd metrics).site_id_to_name id = lookupLast (sitePairs sd metrics) id := by
  have h := pass1_fold_char sd metrics ⟨fun _ => none, fun _ => none, [], []⟩ []
    (by intro b; simp)
  rw [pass1, h.2 id, sitePairs]
  cases hl : lookupLast (sitePairsAux sd [] metrics) id <;> simp [hl]

lemma pass1_all_timestamps_mem (sd : Str → Option Str) :
    ∀ (l : List SiteMetric) (st : Pass1State) (t : Str),
    t ∈ (l.foldl (pass1Step sd) st).all_timestamps ↔
      t ∈ st.all_timestamps ∨ (t ≠ [] ∧ ∃ sm ∈ l, ∃ p ∈ sm.periods, p.metricTime = some t)
  | [], st, t => by simp
  | sm :: rest, st, t => by
      rw [List.foldl_cons, pass1_all_timestamps_mem sd rest (pass1Step sd st sm) t,
        pass1Step_all_timestamps, mem_foldl_addTS]
      simp only [List.mem_cons]
      constructor
      · rintro ((h | ⟨hne, p, hp, hmt⟩) | ⟨hne, q, hq, p, hp, hmt⟩)
        · exact Or.inl h
        · exact Or.inr ⟨hne, sm, Or.inl rfl, p, hp, hmt⟩
        · exact Or.inr ⟨hne, q, Or.inr hq, p, hp, hmt⟩
      · rintro (h | ⟨hne, q, (rfl | hq), p, hp, hmt⟩)
        · exact Or.inl (Or.inl h)
        · exact Or.inl (Or.inr ⟨hne, p, hp, hmt⟩)
        · exact Or.inr ⟨hne, q, hq, p, hp, hmt⟩

lemma pass1_all_timestamps_nodup (sd : Str → Option Str) :
    ∀ (l : List SiteMetric) (st : Pass1State), st.all_timestamps.Nodup →
    (l.foldl (pass1Step sd) st).all_timestamps.Nodup
  | [], _, h => h
  | sm :: rest, st, h => by
      rw [List.foldl_cons]
      refine pass1_all_timestamps_nodup sd rest (pass1Step sd st sm) ?_
      rw [pass1Step_all_timestamps]
      exact nodup_foldl_addTS sm.periods st.all_timestamps h

/-! ## Positional facts about the assigned names -/

lemma sitePairsAux_length (sd : Str → Option Str) :
    ∀ (l : List SiteMetric) (seen : List Str),
    (sitePairsAux sd seen l).length = l.length
  | [], _ => rfl
  | sm :: rest, seen => by
      simp [sitePairsAux, sitePairsAux_length sd rest]

lemma sitePairsAux_getD (sd : Str → Option Str) :
    ∀ (l : List SiteMetric) (seen : List Str) (i : Nat), i < l.length →
    (sitePairsAux sd seen l).getD i ([], []) =
      (effSiteId (l.getD i default),
       uniqueNameOf sd (seen ++ basesOf sd (l.take i)) (l.getD i default))
  | [], _, i, hi => absurd hi (by simp)
  | sm :: rest, seen, 0, _ => by
      simp [sitePairsAux, basesOf]
  | sm :: rest, seen, i + 1, hi => by
      have hi' : i < rest.length := by simpa using hi
      simp only [sitePairsAux, List.getD_cons_succ, List.take_succ_cons, basesOf_cons]
      rw [sitePairsAux_getD sd rest (seen ++ [recBase sd sm]) i hi']
      simp [List.append_assoc]

lemma sitePairsAux_keys (sd : Str → Option Str) :
    ∀ (l : List SiteMetric) (seen : List Str),
    (sitePairsAux sd seen l).map Prod.fst = l.map effSiteId
  | [], _ => rfl
  | sm :: rest, seen => by
      simp [sitePairsAux, sitePairsAux_keys sd rest]

/-! ## Last-binding lookup lemmas -/

lemma lookupLast_eq_none (id : Str) :
    ∀ ps : List (Str × Str), id ∉ ps.map Prod.fst → lookupLast ps id = none
  | [], _ => rfl
  | (k, v) :: rest, h => by
      simp only [List.map_cons, List.mem_cons] at h
      push_neg at h
      have hr := lookupLast_eq_none id rest h.2
      simp [lookupLast, hr, h.1]

lemma lookupLast_getD : ∀ (ps : List (Str × Str)) (i : Nat), i < ps.length →
    (ps.map Prod.fst).Nodup →
    lookupLast ps ((ps.getD i ([], [])).fst) = some ((ps.getD i ([], [])).snd)
  | [], i, hi, _ => absurd hi (by simp)
  | (k, v) :: rest, 0, _, hnd => by
      simp only [List.getD_cons_zero]
      have hk : k ∉ rest.map Prod.fst := by
        simp only [List.map_cons, List.nodup_cons] at hnd
        exact hnd.1
      simp [lookupLast, lookupLast_eq_none k rest hk]
  | (k, v) :: rest, i + 1, hi, hnd => by
      rw [List.getD_cons_succ]
      have hi' : i < rest.length := by simpa using hi
      have hnd' : (rest.map Prod.fst).Nodup := by
        simp only [List.map_cons, List.nodup_cons] at hnd
        exact hnd.2
      have hr := lookupLast_getD rest i hi' hnd'
      simp only [lookupLast]
      rw [hr]

/-! ## Pass 2 lemmas -/

lemma pass2Step_fixed (tss : List Str) (idmap : Str → Option Str) (cd : ChartData)
    (sm : SiteMetric) :
    (pass2Step tss idmap cd sm).sites = cd.sites ∧
    (pass2Step tss idmap cd sm).timestamps = cd.timestamps :=
  ⟨rfl, rfl⟩

lemma pass2_fold_fixed (tss : List Str) (idmap : Str → Option Str) :
    ∀ (l : List SiteMetric) (cd : ChartData),
    (l.foldl (pass2Step tss idmap) cd).sites = cd.sites ∧
    (l.foldl (pass2Step tss idmap) cd).timestamps = cd.timestamps
  | [], _ => ⟨rfl, rfl⟩
  | sm :: rest, cd => by
      rw [List.foldl_cons]
      obtain ⟨h1, h2⟩ := pass2_fold_fixed tss idmap rest (pass2Step tss idmap cd sm)
      exact ⟨h1, h2⟩

lemma dupdate_ne {α : Type} (f : Str → Option α) (k : Str) (v : α) (b : Str)
    (h : b ≠ k) : dupdate f k v b = f b := by
  unfold dupdate
  rw [if_neg h]

lemma dupdate_self {α : Type} (f : Str → Option α) (k : Str) (v : α) :
    dupdate f k v k = some v := by
  unfold dupdate
  rw [if_pos rfl]

lemma pass2_fold_untouched (tss : List Str) (idmap : Str → Option Str) :
    ∀ (l : List SiteMetric) (cd : ChartData) (name : Str),
    name ∉ l.map (pass2Name idmap) →
    (l.foldl (pass2Step tss idmap) cd).latency name = cd.latency name ∧
    (l.foldl (pass2Step tss idmap) cd).download name = cd.download name ∧
    (l.foldl (pass2Step tss idmap) cd).upload name = cd.upload name ∧
    (l.foldl (pass2Step tss idmap) cd).packet_loss name = cd.packet_loss name ∧
    (l.foldl (pass2Step tss idmap) cd).uptime name = cd.uptime name
  | [], _, _, _ => ⟨rfl, rfl, rfl, rfl, rfl⟩
  | sm :: rest, cd, name, h => by
      simp only [List.map_cons, List.mem_cons] at h
      push_neg at h
      rw [List.foldl_cons]
      obtain ⟨h1, h2, h3, h4, h5⟩ :=
        pass2_fold_untouched tss idmap rest (pass2Step tss idmap cd sm) name
          (by simpa using h.2)
      refine ⟨?_, ?_, ?_, ?_, ?_⟩
      · rw [h1]
        show dupdate cd.latency _ _ name = _
        rw [dupdate_ne _ _ _ _ h.1]
      · rw [h2]
        show dupdate cd.download _ _ name = _
        rw [dupdate_ne _ _ _ _ h.1]
      · rw [h3]
        show dupdate cd.upload _ _ name = _
        rw [dupdate_ne _ _ _ _ h.1]
      · rw [h4]
        show dupdate cd.packet_loss _ _ name = _
        rw [dupdate_ne _ _ _ _ h.1]
      · rw [h5]
        show dupdate cd.uptime _ _ name = _
        rw [dupdate_ne _ _ _ _ h.1]

lemma pass2_fold_filled (tss : List Str) (idmap : Str → Option Str) :
    ∀ (l : List SiteMetric) (cd : ChartData) (i : Nat), i < l.length →
    (l.map (pass2Name idmap)).Nodup →
    (l.foldl (pass2Step tss idmap) cd).latency (pass2Name idmap (l.getD i default)) =
      some (siteRow latVal (tsMap (l.getD i default).periods) tss) ∧
    (l.foldl (pass2Step tss idmap) cd).download (pass2Name idmap (l.getD i default)) =
      some (siteRow dlVal (tsMap (l.getD i default).periods) tss) ∧
    (l.foldl (pass2Step tss idmap) cd).upload (pass2Name idmap (l.getD i default)) =
      some (siteRow upVal (tsMap (l.getD i default).periods) tss) ∧
    (l.foldl (pass2Step tss idmap) cd).packet_loss (pass2Name idmap (l.getD i default)) =
      some (siteRow plVal (tsMap (l.getD i default).periods) tss) ∧
    (l.foldl (pass2Step tss idmap) cd).uptime (pass2Name idmap (l.getD i default)) =
      some (siteRow utVal (tsMap (l.getD i default).periods) tss)
  | [], _, i, hi, _ => absurd hi (by simp)
  | sm :: rest, cd, 0, _, hnd => by
      simp only [List.getD_cons_zero, List.foldl_cons]
      have hname : pass2Name idmap sm ∉ rest.map (pass2Name idmap) := by
        simp only [List.map_cons, List.nodup_cons] at hnd
        exact hnd.1
      obtain ⟨h1, h2, h3, h4, h5⟩ :=
        pass2_fold_untouched tss idmap rest (pass2Step tss idmap cd sm)
          (pass2Name idmap sm) hname
      refine ⟨?_, ?_, ?_, ?_, ?_⟩
      · rw [h1]
        exact dupdate_self cd.latency _ _
      · rw [h2]
        exact dupdate_self cd.download _ _
      · rw [h3]
        exact dupdate_self cd.upload _ _
      · rw [h4]
        exact dupdate_self cd.packet_loss _ _
      · rw [h5]
        exact dupdate_self cd.uptime _ _
  | sm :: rest, cd, i + 1, hi, hnd => by
      rw [List.getD_cons_succ, List.foldl_cons]
      have hi' : i < rest.length := by simpa using hi
      have hnd' : (rest.map (pass2Name idmap)).Nodup := by
        simp only [List.map_cons, List.nodup_cons] at hnd
        exact hnd.2
      exact pass2_fold_filled tss idmap rest (pass2Step tss idmap cd sm) i hi' hnd'

/-! ## Facts about `prepare_chart_data` as a whole -/

lemma prepare_sites (metrics : List SiteMetric) (sd : Str → Option Str) :
    (prepare_chart_data metrics sd).sites = (sitePairs sd metrics).map Prod.snd := by
  unfold prepare_chart_data
  rw [(pass2_fold_fixed _ _ metrics _).1]
  exact pass1_sites_eq sd metrics

lemma prepare_timestamps (metrics : List SiteMetric) (sd : Str → Option Str) :
    (prepare_chart_data metrics sd).timestamps =
      sortTS (pass1 sd metrics).all_timestamps := by
  unfold prepare_chart_data
  rw [(pass2_fold_fixed _ _ metrics _).2]

lemma siteRow_length (f : Bundle → ℚ) (m : Str → Option Bundle) (tss : List Str) :
    (siteRow f m tss).length = tss.length := by
  unfold siteRow
  rw [List.length_map]

lemma siteRow_getD (f : Bundle → ℚ) (m : Str → Option Bundle) (tss : List Str)
    (k : Nat) (hk : k < tss.length) :
    (siteRow f m tss).getD k 0 = f ((m (tss.getD k [])).getD emptyBundle) := by
  unfold siteRow
  have hk' : k < (tss.map (fun t => f ((m t).getD emptyBundle))).length := by
    rw [List.length_map]
    exact hk
  rw [List.getD_eq_getElem _ _ hk', List.getD_eq_getElem _ _ hk, List.getElem_map]

/-! ## Remaining bridge lemmas -/

lemma prepare_eq_fold (metrics : List SiteMetric) (sd : Str → Option Str) :
    prepare_chart_data metrics sd =
      metrics.foldl
        (pass2Step (sortTS (pass1 sd metrics).all_timestamps)
          (pass1 sd metrics).site_id_to_name)
        ⟨(pass1 sd metrics).sites, sortTS (pass1 sd metrics).all_timestamps,
          fun _ => none, fun _ => none, fun _ => none, fun _ => none, fun _ => none⟩ :=
  rfl

lemma prepare_timestamps_mem (metrics : List SiteMetric) (sd : Str → Option Str)
    (t : Str) :
    t ∈ (prepare_chart_data metrics sd).timestamps ↔ tsOccurs t metrics := by
  rw [prepare_timestamps, mem_sortTS]
  unfold pass1
  rw [pass1_all_timestamps_mem]
  simp [tsOccurs]

lemma prepare_timestamps_sorted (metrics : List SiteMetric) (sd : Str → Option Str) :
    (prepare_chart_data metrics sd).timestamps.Pairwise
      (fun a b => strLt a b = true) := by
  rw [prepare_timestamps]
  apply pairwise_sortTS
  unfold pass1
  exact pass1_all_timestamps_nodup sd metrics _ (by simp)

lemma basesOf_take (sd : Str → Option Str) (metrics : List SiteMetric) (i : Nat) :
    basesOf sd (metrics.take i) = (basesOf sd metrics).take i := by
  simp [basesOf, List.map_take]

lemma prepare_sites_getD (metrics : List SiteMetric) (sd : Str → Option Str)
    (i : Nat) (hi : i < metrics.length) :
    (prepare_chart_data metrics sd).sites.getD i [] =
      uniqueNameOf sd (basesOf sd (metrics.take i)) (metrics.getD i default) := by
  rw [prepare_sites]
  have hlen : i < (sitePairs sd metrics).length := by
    rw [sitePairs, sitePairsAux_length]
    exact hi
  have hlen2 : i < ((sitePairs sd metrics).map Prod.snd).length := by
    rw [List.length_map]
    exact hlen
  rw [List.getD_eq_getElem _ _ hlen2, List.getElem_map]
  have hgd : (sitePairs sd metrics)[i] = (sitePairs sd metrics).getD i ([], []) :=
    (List.getD_eq_getElem _ _ hlen).symm
  rw [hgd, sitePairs, sitePairsAux_getD sd metrics [] i hi]
  simp

lemma sitePairs_getD_fst (metrics : List SiteMetric) (sd : Str → Option Str)
    (i : Nat) (hi : i < metrics.length) :
    ((sitePairs sd metrics).getD i ([], [])).fst = effSiteId (metrics.getD i default) := by
  rw [sitePairs, sitePairsAux_getD sd metrics [] i hi]

lemma prepare_sites_length (metrics : List SiteMetric) (sd : Str → Option Str) :
    (prepare_chart_data metrics sd).sites.length = metrics.length := by
  rw [prepare_sites, List.length_map, sitePairs, sitePairsAux_length]

lemma mem_take_of_lt (metrics : List SiteMetric) (sd : Str → Option Str)
    (i j : Nat) (hij : i < j) (hi : i < metrics.length) :
    recBase sd (metrics.getD i default) ∈ basesOf sd (metrics.take j) := by
  have hit : i < (metrics.take j).length := by
    rw [List.length_take]
    exact lt_min hij hi
  have hmemtake : metrics.getD i default ∈ metrics.take j := by
    have h1 : (metrics.take j).getD i default = metrics.getD i default := by
      rw [List.getD_eq_getElem _ _ hit, List.getD_eq_getElem _ _ hi]
      simp [List.getElem_take]
    rw [← h1, List.getD_eq_getElem _ _ hit]
    apply List.getElem_mem
  exact List.mem_map_of_mem (recBase sd) hmemtake

/-! ## Lemmas for removing empty-timestamped periods -/

lemma pass1Step_drop (sd : Str → Option Str) (st : Pass1State) (sm : SiteMetric) :
    pass1Step sd st (dropEmptyPeriods sm) = pass1Step sd st sm := by
  unfold pass1Step
  have heff : effSiteId (dropEmptyPeriods sm) = effSiteId sm := rfl
  rw [heff]
  have hp : (dropEmptyPeriods sm).periods =
      sm.periods.filter (fun p => !(p.metricTime.getD []).isEmpty) := rfl
  cases h : st.name_counts (baseName sd (effSiteId sm)) <;>
    rw [hp, foldl_addTS_filter]

lemma pass2Step_drop (tss : List Str) (idmap : Str → Option Str) (cd : ChartData)
    (sm : SiteMetric) :
    pass2Step tss idmap cd (dropEmptyPeriods sm) = pass2Step tss idmap cd sm := by
  unfold pass2Step
  have hname : pass2Name idmap (dropEmptyPeriods sm) = pass2Name idmap sm := rfl
  rw [hname, tsMap_dropEmpty]

lemma pass1_drop (sd : Str → Option Str) (metrics : List SiteMetric) :
    pass1 sd (metrics.map dropEmptyPeriods) = pass1 sd metrics := by
  unfold pass1
  rw [List.foldl_map]
  have hf : (fun st sm => pass1Step sd st (dropEmptyPeriods sm)) = pass1Step sd := by
    funext st sm
    exact pass1Step_drop sd st sm
  rw [hf]

/-! ## Claim theorems -/

/-- C6: for a period carrying a data object, the bundle used for extraction
is the nested `wan` sub-object when the object contains the `wan` key, and
the whole data object otherwise; both shapes give the same bundle, hence the
same downstream extraction. -/
theorem wan_bundle_selection (t : Option Str) (w fl : Bundle) :
    bundleOfPeriod ⟨t, some ⟨some w, fl⟩⟩ = w ∧
    bundleOfPeriod ⟨t, some ⟨none, fl⟩⟩ = fl ∧
    bundleOfPeriod ⟨t, some ⟨some w, fl⟩⟩ = bundleOfPeriod ⟨t, some ⟨none, w⟩⟩ :=
  ⟨rfl, rfl, rfl⟩

/-- C7: within one site, the per-site timestamp→bundle map holds the bundle
of the last period in input order with that (non-empty) timestamp, so the
value appended at that axis position comes from the last occurrence. -/
theorem tsmap_last_write_wins (ps : List Period) (t : Str) (ht : t ≠ []) :
    tsMap ps t = lastMatch t ps ∧
    ∀ (tss : List Str) (k : Nat) (f : Bundle → ℚ), k < tss.length →
      tss.getD k [] = t →
      (siteRow f (tsMap ps) tss).getD k 0 = f ((lastMatch t ps).getD emptyBundle) := by
  have h := tsMap_eq_lastMatch ps t ht
  refine ⟨h, ?_⟩
  intro tss k f hk hget
  rw [siteRow_getD f _ _ k hk, hget, h]

/-- Witness for C7: two periods share timestamp `"T"`; the map holds the
second period's bundle. -/
theorem tsmap_last_write_wins_witness :
    str "T" ≠ [] ∧
    tsMap [⟨some (str "T"), some ⟨none, ⟨some 1, none, none, none, none⟩⟩⟩,
        ⟨some (str "T"), some ⟨none, ⟨some 2, none, none, none, none⟩⟩⟩] (str "T") =
      lastMatch (str "T")
        [⟨some (str "T"), some ⟨none, ⟨some 1, none, none, none, none⟩⟩⟩,
         ⟨some (str "T"), some ⟨none, ⟨some 2, none, none, none, none⟩⟩⟩] ∧
    tsMap [⟨some (str "T"), some ⟨none, ⟨some 1, none, none, none, none⟩⟩⟩,
        ⟨some (str "T"), some ⟨none, ⟨some 2, none, none, none, none⟩⟩⟩] (str "T") =
      some ⟨some 2, none, none, none, none⟩ :=
  ⟨by decide,
   (tsmap_last_write_wins
      [⟨some (str "T"), some ⟨none, ⟨some 1, none, none, none, none⟩⟩⟩,
       ⟨some (str "T"), some ⟨none, ⟨some 2, none, none, none, none⟩⟩⟩]
      (str "T") (by decide)).1,
   by decide⟩

/-- C8: when the extracted metrics array is empty (response, data or metrics
key missing, or metrics empty), `generate_html_dashboard` prints the error
and returns without writing: the output file's contents are unchanged. -/
theorem empty_metrics_no_write (md : MetricsData) (sd : Str → Option Str)
    (prev : Option Dashboard) (h : extractMetrics md = []) :
    generate_html_dashboard md sd prev = (prev, true) := by
  unfold generate_html_dashboard
  rw [h]
  rfl

/-- Witness for C8: a metrics document with no `response` key leaves a
non-existent output file untouched and reports the error. -/
theorem empty_metrics_no_write_witness :
    extractMetrics ⟨none⟩ = [] ∧
    generate_html_dashboard ⟨none⟩ (fun _ => none) none = (none, true) :=
  ⟨rfl, empty_metrics_no_write ⟨none⟩ (fun _ => none) none rfl⟩

/-- C3 counterexample: a period whose `metricTime` is the empty string makes
a timestamp string appear in a period, yet the produced axis is empty — so
the axis is not the sorted sequence of *every* timestamp string appearing. -/
theorem timestamps_axis_counterexample :
    (prepare_chart_data [⟨some (str "a"), [⟨some [], none⟩]⟩]
        (fun _ => none)).timestamps = [] ∧
    ∃ sm ∈ ([⟨some (str "a"), [⟨some [], none⟩]⟩] : List SiteMetric),
      ∃ p ∈ sm.periods, p.metricTime = some [] := by
  constructor
  · decide
  · exact ⟨⟨some (str "a"), [⟨some [], none⟩]⟩, by decide,
      ⟨some [], none⟩, by decide, rfl⟩

/-- C3 (amended): the pivot's timestamp axis is the strictly-ascending,
duplicate-free enumeration of exactly the *non-empty* timestamp strings
appearing as the `metricTime` of some period of some record. -/
theorem timestamps_axis_char (metrics : List SiteMetric) (sd : Str → Option Str) :
    (prepare_chart_data metrics sd).timestamps.Pairwise
        (fun a b => strLt a b = true) ∧
    (prepare_chart_data metrics sd).timestamps.Nodup ∧
    ∀ t, t ∈ (prepare_chart_data metrics sd).timestamps ↔
      (t ≠ [] ∧ ∃ sm ∈ metrics, ∃ p ∈ sm.periods, p.metricTime = some t) := by
  refine ⟨prepare_timestamps_sorted metrics sd, ?_, ?_⟩
  · refine (prepare_timestamps_sorted metrics sd).imp ?_
    intro a b hab he
    rw [he] at hab
    simp [strLt_irrefl] at hab
  · intro t
    rw [prepare_timestamps_mem]
    exact Iff.rfl

/-- C4: pass 2's appended value at each axis position: download and upload
are `0` for an absent/null/zero source value and the exact source value
divided by 1000 otherwise (negative values pass through unclamped); latency,
packet loss and uptime are `0` for an absent/null source value. -/
theorem extraction_zero_conventions (m : Str → Option Bundle) (tss : List Str)
    (k : Nat) (hk : k < tss.length) :
    ((bundleAt m tss k).download_kbps = none ∨
        (bundleAt m tss k).download_kbps = some 0 →
      (siteRow dlVal m tss).getD k 0 = 0) ∧
    (∀ v : ℚ, (bundleAt m tss k).download_kbps = some v → v ≠ 0 →
      (siteRow dlVal m tss).getD k 0 = v / 1000) ∧
    ((bundleAt m tss k).upload_kbps = none ∨
        (bundleAt m tss k).upload_kbps = some 0 →
      (siteRow upVal m tss).getD k 0 = 0) ∧
    (∀ v : ℚ, (bundleAt m tss k).upload_kbps = some v → v ≠ 0 →
      (siteRow upVal m tss).getD k 0 = v / 1000) ∧
    ((bundleAt m tss k).avgLatency = none →
      (siteRow latVal m tss).getD k 0 = 0) ∧
    ((bundleAt m tss k).packetLoss = none →
      (siteRow plVal m tss).getD k 0 = 0) ∧
    ((bundleAt m tss k).uptime = none →
      (siteRow utVal m tss).getD k 0 = 0) := by
  have hdl := siteRow_getD dlVal m tss k hk
  have hup := siteRow_getD upVal m tss k hk
  have hlat := siteRow_getD latVal m tss k hk
  have hpl := siteRow_getD plVal m tss k hk
  have hut := siteRow_getD utVal m tss k hk
  refine ⟨?_, ?_, ?_, ?_, ?_, ?_, ?_⟩
  · rintro (h | h) <;> rw [hdl] <;> simp [dlVal, bundleAt] at h ⊢ <;> simp [h]
  · intro v hv hvne
    rw [hdl]
    simp only [bundleAt] at hv
    unfold dlVal
    rw [hv]
    show (if v = 0 then (0 : ℚ) else v / 1000) = v / 1000
    rw [if_neg hvne]
  · rintro (h | h) <;> rw [hup] <;> simp [upVal, bundleAt] at h ⊢ <;> simp [h]
  · intro v hv hvne
    rw [hup]
    simp only [bundleAt] at hv
    unfold upVal
    rw [hv]
    show (if v = 0 then (0 : ℚ) else v / 1000) = v / 1000
    rw [if_neg hvne]
  · intro h
    rw [hlat]
    simp only [bundleAt] at h
    unfold latVal
    rw [h]
    rfl
  · intro h
    rw [hpl]
    simp only [bundleAt] at h
    unfold plVal
    rw [h]
    rfl
  · intro h
    rw [hut]
    simp only [bundleAt] at h
    unfold utVal
    rw [h]
    rfl

/-- Witness for C4: a negative download value of −5000 kbps passes through
the division unclamped, giving −5000/1000 Mbps. -/
theorem extraction_zero_conventions_witness :
    0 < ([str "T"] : List Str).length ∧
    (bundleAt
        (fun t => if t = str "T"
          then some ⟨none, some (-5000), some 2500, none, none⟩ else none)
        [str "T"] 0).download_kbps = some (-5000) ∧
    (siteRow dlVal
        (fun t => if t = str "T"
          then some ⟨none, some (-5000), some 2500, none, none⟩ else none)
        [str "T"]).getD 0 0 = -5000 / 1000 :=
  ⟨by decide, by decide,
   (extraction_zero_conventions
      (fun t => if t = str "T"
        then some ⟨none, some (-5000), some 2500, none, none⟩ else none)
      [str "T"] 0 (by decide)).2.1 (-5000) (by decide) (by norm_num)⟩

/-- C5: the two-site "Office" scenario produces display names `"Office"` and
`"Office (bbbbbbbb)"`; in general the first occurrence of a base name keeps
the bare name and every subsequent occurrence receives the parenthesized
identifier-prefix suffix, as computed in one left-to-right pass. -/
theorem office_scenario_and_dedup_rule :
    (prepare_chart_data
        [⟨some (str "aaaaaaaa-1111"), []⟩, ⟨some (str "bbbbbbbb-2222"), []⟩]
        (fun id => if id = str "aaaaaaaa-1111" ∨ id = str "bbbbbbbb-2222"
          then some (str "Office") else none)).sites
      = [str "Office", str "Office (bbbbbbbb)"] ∧
    ∀ (metrics : List SiteMetric) (sd : Str → Option Str) (i : Nat),
      i < metrics.length →
      (prepare_chart_data metrics sd).sites.getD i [] =
        uniqueNameOf sd (basesOf sd (metrics.take i)) (metrics.getD i default) :=
  ⟨by decide, fun metrics sd i hi => prepare_sites_getD metrics sd i hi⟩

/-- Witness for C5: the general naming rule evaluated on a one-record input
with no lookup entry: the first occurrence keeps its bare fallback name. -/
theorem office_scenario_and_dedup_rule_witness :
    0 < ([⟨some (str "cccccccc-7777"), []⟩] : List SiteMetric).length ∧
    (prepare_chart_data [⟨some (str "cccccccc-7777"), []⟩]
        (fun _ => none)).sites.getD 0 [] =
      uniqueNameOf (fun _ => none)
        (basesOf (fun _ => none)
          (([⟨some (str "cccccccc-7777"), []⟩] : List SiteMetric).take 0))
        (([⟨some (str "cccccccc-7777"), []⟩] : List SiteMetric).getD 0 default) :=
  ⟨by decide,
   office_scenario_and_dedup_rule.2 [⟨some (str "cccccccc-7777"), []⟩]
     (fun _ => none) 0 (by decide)⟩

/-- C10: a period whose `metricTime` is absent or the empty string
contributes nothing: deleting all such periods leaves the whole pivot table
unchanged, and the axis never contains the empty timestamp. -/
theorem empty_time_periods_no_effect (metrics : List SiteMetric)
    (sd : Str → Option Str) :
    prepare_chart_data (metrics.map dropEmptyPeriods) sd =
      prepare_chart_data metrics sd ∧
    [] ∉ (prepare_chart_data metrics sd).timestamps := by
  constructor
  · rw [prepare_eq_fold, prepare_eq_fold, pass1_drop]
    rw [List.foldl_map]
    have hf : (fun cd sm => pass2Step (sortTS (pass1 sd metrics).all_timestamps)
        (pass1 sd metrics).site_id_to_name cd (dropEmptyPeriods sm))
        = pass2Step (sortTS (pass1 sd metrics).all_timestamps)
            (pass1 sd metrics).site_id_to_name := by
      funext cd sm
      exact pass2Step_drop _ _ cd sm
    rw [hf]
  · intro hmem
    have h := (prepare_timestamps_mem metrics sd []).mp hmem
    exact h.1 rfl

/-! ## Display-name distinctness (C2) -/

lemma names_ne_of_lt (metrics : List SiteMetric) (sd : Str → Option Str)
    (hparen : ∀ sm ∈ metrics, '(' ∉ recBase sd sm)
    (hpref : metrics.Pairwise (fun s1 s2 => recBase sd s1 = recBase sd s2 →
      effSiteId s1 ≠ effSiteId s2 → (effSiteId s1).take 8 ≠ (effSiteId s2).take 8))
    (i j : Nat) (hij : i < j) (hj : j < metrics.length)
    (hid : effSiteId (metrics.getD i default) ≠ effSiteId (metrics.getD j default)) :
    uniqueNameOf sd (basesOf sd (metrics.take i)) (metrics.getD i default) ≠
      uniqueNameOf sd (basesOf sd (metrics.take j)) (metrics.getD j default) := by
  have hi : i < metrics.length := lt_trans hij hj
  have hmi : metrics.getD i default ∈ metrics := by
    rw [List.getD_eq_getElem _ _ hi]
    apply List.getElem_mem
  have hmj : metrics.getD j default ∈ metrics := by
    rw [List.getD_eq_getElem _ _ hj]
    apply List.getElem_mem
  have hpi := hparen _ hmi
  have hpj := hparen _ hmj
  have hR : recBase sd (metrics.getD i default) = recBase sd (metrics.getD j default) →
      (effSiteId (metrics.getD i default)).take 8 ≠
        (effSiteId (metrics.getD j default)).take 8 := by
    intro hbase
    have hr := (List.pairwise_iff_getElem.mp hpref) i j hi hj hij
    rw [List.getD_eq_getElem _ _ hi, List.getD_eq_getElem _ _ hj] at hbase hid ⊢
    exact hr hbase hid
  unfold uniqueNameOf
  by_cases hbi : recBase sd (metrics.getD i default) ∈ basesOf sd (metrics.take i)
  · rw [if_pos hbi]
    by_cases hbj : recBase sd (metrics.getD j default) ∈ basesOf sd (metrics.take j)
    · rw [if_pos hbj]
      intro heq
      obtain ⟨hb, ht⟩ := append_sfx_inj _ _ _ _ hpi hpj heq
      exact hR hb ht
    · rw [if_neg hbj]
      exact (bare_ne_sfxed _ _ _ hpj).symm
  · rw [if_neg hbi]
    by_cases hbj : recBase sd (metrics.getD j default) ∈ basesOf sd (metrics.take j)
    · rw [if_pos hbj]
      exact bare_ne_sfxed _ _ _ hpi
    · rw [if_neg hbj]
      intro heq
      apply hbj
      rw [← heq]
      exact mem_take_of_lt metrics sd i j hij hi

/-- C2 counterexample: three records with distinct identifiers sharing the
same 8-character prefix (and hence the same fallback base name) make the
second and third records receive the *same* display name, refuting the claim
that distinct identifiers always get distinct display names. -/
theorem distinct_ids_distinct_names_counterexample :
    effSiteId ⟨some (str "bbbbbbbb-2222"), []⟩ ≠
      effSiteId ⟨some (str "bbbbbbbb-3333"), []⟩ ∧
    (prepare_chart_data
        [⟨some (str "bbbbbbbb-1111"), []⟩, ⟨some (str "bbbbbbbb-2222"), []⟩,
         ⟨some (str "bbbbbbbb-3333"), []⟩] (fun _ => none)).sites.getD 1 [] =
      (prepare_chart_data
        [⟨some (str "bbbbbbbb-1111"), []⟩, ⟨some (str "bbbbbbbb-2222"), []⟩,
         ⟨some (str "bbbbbbbb-3333"), []⟩] (fun _ => none)).sites.getD 2 [] := by
  constructor
  · decide
  · decide

/-- C2 (amended): records with distinct (effective) site identifiers get
distinct display names, provided no resolved base name contains `'('` and
any two records sharing a base name but with distinct identifiers have
distinct 8-character identifier prefixes. -/
theorem distinct_ids_distinct_names (metrics : List SiteMetric)
    (sd : Str → Option Str)
    (hparen : ∀ sm ∈ metrics, '(' ∉ recBase sd sm)
    (hpref : metrics.Pairwise (fun s1 s2 => recBase sd s1 = recBase sd s2 →
      effSiteId s1 ≠ effSiteId s2 → (effSiteId s1).take 8 ≠ (effSiteId s2).take 8))
    (i j : Nat) (hi : i < metrics.length) (hj : j < metrics.length)
    (hid : effSiteId (metrics.getD i default) ≠ effSiteId (metrics.getD j default)) :
    (prepare_chart_data metrics sd).sites.getD i [] ≠
      (prepare_chart_data metrics sd).sites.getD j [] := by
  rw [prepare_sites_getD metrics sd i hi, prepare_sites_getD metrics sd j hj]
  rcases lt_trichotomy i j with h | h | h
  · exact names_ne_of_lt metrics sd hparen hpref i j h hj hid
  · subst h
    exact absurd rfl hid
  · exact (names_ne_of_lt metrics sd hparen hpref j i h hi hid.symm).symm

/-- Witness for C2: two records with distinct identifiers, paren-free base
names and distinct prefixes receive distinct display names. -/
theorem distinct_ids_distinct_names_witness :
    (∀ sm ∈ ([⟨some (str "aaaaaaaa-1111"), []⟩, ⟨some (str "bbbbbbbb-2222"), []⟩] :
        List SiteMetric), '(' ∉ recBase (fun _ => none) sm) ∧
    ([⟨some (str "aaaaaaaa-1111"), []⟩, ⟨some (str "bbbbbbbb-2222"), []⟩] :
        List SiteMetric).Pairwise
      (fun s1 s2 => recBase (fun _ => none) s1 = recBase (fun _ => none) s2 →
        effSiteId s1 ≠ effSiteId s2 →
        (effSiteId s1).take 8 ≠ (effSiteId s2).take 8) ∧
    (prepare_chart_data
        [⟨some (str "aaaaaaaa-1111"), []⟩, ⟨some (str "bbbbbbbb-2222"), []⟩]
        (fun _ => none)).sites.getD 0 [] ≠
      (prepare_chart_data
        [⟨some (str "aaaaaaaa-1111"), []⟩, ⟨some (str "bbbbbbbb-2222"), []⟩]
        (fun _ => none)).sites.getD 1 [] :=
  ⟨by decide, by decide,
   distinct_ids_distinct_names
     [⟨some (str "aaaaaaaa-1111"), []⟩, ⟨some (str "bbbbbbbb-2222"), []⟩]
     (fun _ => none) (by decide) (by decide) 0 1 (by decide) (by decide) (by decide)⟩

/-! ## The §3 invariant (C1) -/

lemma pass2Name_eq (metrics : List SiteMetric) (sd : Str → Option Str)
    (hids : (metrics.map effSiteId).Nodup) (i : Nat) (hi : i < metrics.length) :
    pass2Name (pass1 sd metrics).site_id_to_name (metrics.getD i default) =
      ((sitePairs sd metrics).getD i ([], [])).snd := by
  unfold pass2Name
  rw [pass1_idmap_eq]
  have hkeys : (sitePairs sd metrics).map Prod.fst = metrics.map effSiteId := by
    rw [sitePairs]
    exact sitePairsAux_keys sd metrics []
  have hnd : ((sitePairs sd metrics).map Prod.fst).Nodup := by
    rw [hkeys]
    exact hids
  have hlen : i < (sitePairs sd metrics).length := by
    rw [sitePairs, sitePairsAux_length]
    exact hi
  rw [← sitePairs_getD_fst metrics sd i hi,
    lookupLast_getD (sitePairs sd metrics) i hlen hnd]
  rfl

lemma map_pass2Name_eq_sites (metrics : List SiteMetric) (sd : Str → Option Str)
    (hids : (metrics.map effSiteId).Nodup) :
    metrics.map (pass2Name (pass1 sd metrics).site_id_to_name) =
      (prepare_chart_data metrics sd).sites := by
  rw [prepare_sites]
  apply List.ext_getElem
  · rw [List.length_map, List.length_map, sitePairs, sitePairsAux_length]
  · intro n h1 h2
    rw [List.getElem_map, List.getElem_map]
    have hn : n < metrics.length := by simpa using h1
    have hpn := pass2Name_eq metrics sd hids n hn
    rw [List.getD_eq_getElem _ _ hn] at hpn
    rw [hpn]
    have hlen : n < (sitePairs sd metrics).length := by
      rw [sitePairs, sitePairsAux_length]
      exact hn
    rw [List.getD_eq_getElem _ _ hlen]

lemma sites_getD_eq_pairs_snd (metrics : List SiteMetric) (sd : Str → Option Str)
    (i : Nat) (hi : i < metrics.length) :
    (prepare_chart_data metrics sd).sites.getD i [] =
      ((sitePairs sd metrics).getD i ([], [])).snd := by
  rw [prepare_sites]
  have hlen : i < (sitePairs sd metrics).length := by
    rw [sitePairs, sitePairsAux_length]
    exact hi
  have hlen2 : i < ((sitePairs sd metrics).map Prod.snd).length := by
    rw [List.length_map]
    exact hlen
  rw [List.getD_eq_getElem _ _ hlen2, List.getElem_map, List.getD_eq_getElem _ _ hlen]

lemma metricOk_build (cd : ChartData) (sm : SiteMetric) (name : Str)
    (proj : ChartData → Str → Option (List ℚ)) (f : Bundle → ℚ) (tss : List Str)
    (hts : cd.timestamps = tss)
    (hproj : proj cd name = some (siteRow f (tsMap sm.periods) tss))
    (hz : f emptyBundle = 0) :
    metricOk cd sm name proj := by
  subst hts
  refine ⟨siteRow f (tsMap sm.periods) cd.timestamps, hproj,
    siteRow_length _ _ _, ?_⟩
  intro k hk hnone
  rw [siteRow_getD f _ _ k hk, hnone]
  exact hz

/-- C1 counterexample: two records sharing a site identifier leave the
first record's display name in `sites` with no entry in the latency mapping,
refuting the claim for arbitrary inputs. -/
theorem pivot_invariant_counterexample :
    (prepare_chart_data
        [⟨some (str "aaaaaaaa-1111"), []⟩, ⟨some (str "aaaaaaaa-1111"), []⟩]
        (fun _ => none)).sites.getD 0 [] ∈
      (prepare_chart_data
        [⟨some (str "aaaaaaaa-1111"), []⟩, ⟨some (str "aaaaaaaa-1111"), []⟩]
        (fun _ => none)).sites ∧
    (prepare_chart_data
        [⟨some (str "aaaaaaaa-1111"), []⟩, ⟨some (str "aaaaaaaa-1111"), []⟩]
        (fun _ => none)).latency
      ((prepare_chart_data
        [⟨some (str "aaaaaaaa-1111"), []⟩, ⟨some (str "aaaaaaaa-1111"), []⟩]
        (fun _ => none)).sites.getD 0 []) = none := by
  constructor
  · decide
  · decide

/-- C1 (amended): when the records' effective site identifiers are pairwise
distinct and the resolved display names are pairwise distinct, every display
name in `sites` is a key of all five metric mappings, its value sequence has
exactly `len(timestamps)` entries, and every position where that record has
no data for the corresponding timestamp holds `0`. -/
theorem pivot_invariant (metrics : List SiteMetric) (sd : Str → Option Str)
    (hids : (metrics.map effSiteId).Nodup)
    (hnames : (prepare_chart_data metrics sd).sites.Nodup)
    (i : Nat) (hi : i < metrics.length) :
    metricOk (prepare_chart_data metrics sd) (metrics.getD i default)
      ((prepare_chart_data metrics sd).sites.getD i []) ChartData.latency ∧
    metricOk (prepare_chart_data metrics sd) (metrics.getD i default)
      ((prepare_chart_data metrics sd).sites.getD i []) ChartData.download ∧
    metricOk (prepare_chart_data metrics sd) (metrics.getD i default)
      ((prepare_chart_data metrics sd).sites.getD i []) ChartData.upload ∧
    metricOk (prepare_chart_data metrics sd) (metrics.getD i default)
      ((prepare_chart_data metrics sd).sites.getD i []) ChartData.packet_loss ∧
    metricOk (prepare_chart_data metrics sd) (metrics.getD i default)
      ((prepare_chart_data metrics sd).sites.getD i []) ChartData.uptime := by
  have hmapnames :
      (metrics.map (pass2Name (pass1 sd metrics).site_id_to_name)).Nodup := by
    rw [map_pass2Name_eq_sites metrics sd hids]
    exact hnames
  have hfill := pass2_fold_filled (sortTS (pass1 sd metrics).all_timestamps)
    (pass1 sd metrics).site_id_to_name metrics
    ⟨(pass1 sd metrics).sites, sortTS (pass1 sd metrics).all_timestamps,
      fun _ => none, fun _ => none, fun _ => none, fun _ => none, fun _ => none⟩
    i hi hmapnames
  have hname : (prepare_chart_data metrics sd).sites.getD i [] =
      pass2Name (pass1 sd metrics).site_id_to_name (metrics.getD i default) := by
    rw [sites_getD_eq_pairs_snd metrics sd i hi, pass2Name_eq metrics sd hids i hi]
  have hts := prepare_timestamps metrics sd
  obtain ⟨h1, h2, h3, h4, h5⟩ := hfill
  refine ⟨?_, ?_, ?_, ?_, ?_⟩
  · refine metricOk_build _ _ _ _ latVal _ hts ?_ rfl
    rw [hname, prepare_eq_fold]
    exact h1
  · refine metricOk_build _ _ _ _ dlVal _ hts ?_ rfl
    rw [hname, prepare_eq_fold]
    exact h2
  · refine metricOk_build _ _ _ _ upVal _ hts ?_ rfl
    rw [hname, prepare_eq_fold]
    exact h3
  · refine metricOk_build _ _ _ _ plVal _ hts ?_ rfl
    rw [hname, prepare_eq_fold]
    exact h4
  · refine metricOk_build _ _ _ _ utVal _ hts ?_ rfl
    rw [hname, prepare_eq_fold]
    exact h5

/-- Witness for C1: two records with distinct identifiers and distinct
names satisfy the hypotheses, and the invariant follows at index 0. -/
theorem pivot_invariant_witness :
    (([⟨some (str "aaaaaaaa-1111"), []⟩, ⟨some (str "bbbbbbbb-2222"), []⟩] :
        List SiteMetric).map effSiteId).Nodup ∧
    (prepare_chart_data
        [⟨some (str "aaaaaaaa-1111"), []⟩, ⟨some (str "bbbbbbbb-2222"), []⟩]
        (fun _ => none)).sites.Nodup ∧
    metricOk
      (prepare_chart_data
        [⟨some (str "aaaaaaaa-1111"), []⟩, ⟨some (str "bbbbbbbb-2222"), []⟩]
        (fun _ => none))
      (([⟨some (str "aaaaaaaa-1111"), []⟩, ⟨some (str "bbbbbbbb-2222"), []⟩] :
          List SiteMetric).getD 0 default)
      ((prepare_chart_data
        [⟨some (str "aaaaaaaa-1111"), []⟩, ⟨some (str "bbbbbbbb-2222"), []⟩]
        (fun _ => none)).sites.getD 0 []) ChartData.latency :=
  ⟨by decide, by decide,
   (pivot_invariant
     [⟨some (str "aaaaaaaa-1111"), []⟩, ⟨some (str "bbbbbbbb-2222"), []⟩]
     (fun _ => none) (by decide) (by decide) 0 (by decide)).1⟩

/-! ## Duplicate-identifier shadowing (C9) -/

lemma pass2Step_latency (tss : List Str) (idmap : Str → Option Str) (cd : ChartData)
    (sm : SiteMetric) :
    (pass2Step tss idmap cd sm).latency =
      dupdate cd.latency (pass2Name idmap sm) (siteRow latVal (tsMap sm.periods) tss) :=
  rfl

lemma pass2Step_download (tss : List Str) (idmap : Str → Option Str) (cd : ChartData)
    (sm : SiteMetric) :
    (pass2Step tss idmap cd sm).download =
      dupdate cd.download (pass2Name idmap sm) (siteRow dlVal (tsMap sm.periods) tss) :=
  rfl

lemma pass2Step_upload (tss : List Str) (idmap : Str → Option Str) (cd : ChartData)
    (sm : SiteMetric) :
    (pass2Step tss idmap cd sm).upload =
      dupdate cd.upload (pass2Name idmap sm) (siteRow upVal (tsMap sm.periods) tss) :=
  rfl

lemma pass2Step_packet_loss (tss : List Str) (idmap : Str → Option Str)
    (cd : ChartData) (sm : SiteMetric) :
    (pass2Step tss idmap cd sm).packet_loss =
      dupdate cd.packet_loss (pass2Name idmap sm) (siteRow plVal (tsMap sm.periods) tss) :=
  rfl

lemma pass2Step_uptime (tss : List Str) (idmap : Str → Option Str) (cd : ChartData)
    (sm : SiteMetric) :
    (pass2Step tss idmap cd sm).uptime =
      dupdate cd.uptime (pass2Name idmap sm) (siteRow utVal (tsMap sm.periods) tss) :=
  rfl

lemma dup_pairs (id : Str) (ps1 ps2 : List Period) (sd : Str → Option Str) :
    sitePairs sd [⟨some id, ps1⟩, ⟨some id, ps2⟩] =
      [(id, baseName sd id), (id, baseName sd id ++ sfx id)] := by
  simp [sitePairs, sitePairsAux, uniqueNameOf, recBase, effSiteId]

lemma dup_idmap (id : Str) (ps1 ps2 : List Period) (sd : Str → Option Str) :
    (pass1 sd [⟨some id, ps1⟩, ⟨some id, ps2⟩]).site_id_to_name id =
      some (baseName sd id ++ sfx id) := by
  rw [pass1_idmap_eq, dup_pairs]
  simp [lookupLast]

lemma dup_name (id : Str) (ps1 ps2 ps : List Period) (sd : Str → Option Str) :
    pass2Name (pass1 sd [⟨some id, ps1⟩, ⟨some id, ps2⟩]).site_id_to_name ⟨some id, ps⟩ =
      baseName sd id ++ sfx id := by
  show ((pass1 sd [⟨some id, ps1⟩, ⟨some id, ps2⟩]).site_id_to_name id).getD
      (str "Site-" ++ id.take 8) = baseName sd id ++ sfx id
  rw [dup_idmap]
  rfl

lemma dup_latency (id : Str) (ps1 ps2 : List Period) (sd : Str → Option Str) :
    (prepare_chart_data [⟨some id, ps1⟩, ⟨some id, ps2⟩] sd).latency =
      dupdate
        (dupdate (fun _ => none) (baseName sd id ++ sfx id)
          (siteRow latVal (tsMap ps1) (sortTS (pass1 sd [⟨some id, ps1⟩, ⟨some id, ps2⟩]).all_timestamps)))
        (baseName sd id ++ sfx id)
        (siteRow latVal (tsMap ps2) (sortTS (pass1 sd [⟨some id, ps1⟩, ⟨some id, ps2⟩]).all_timestamps)) := by
  rw [prepare_eq_fold]
  simp only [List.foldl_cons, List.foldl_nil]
  rw [pass2Step_latency, pass2Step_latency, dup_name, dup_name]

lemma dup_download (id : Str) (ps1 ps2 : List Period) (sd : Str → Option Str) :
    (prepare_chart_data [⟨some id, ps1⟩, ⟨some id, ps2⟩] sd).download =
      dupdate
        (dupdate (fun _ => none) (baseName sd id ++ sfx id)
          (siteRow dlVal (tsMap ps1) (sortTS (pass1 sd [⟨some id, ps1⟩, ⟨some id, ps2⟩]).all_timestamps)))
        (baseName sd id ++ sfx id)
        (siteRow dlVal (tsMap ps2) (sortTS (pass1 sd [⟨some id, ps1⟩, ⟨some id, ps2⟩]).all_timestamps)) := by
  rw [prepare_eq_fold]
  simp only [List.foldl_cons, List.foldl_nil]
  rw [pass2Step_download, pass2Step_download, dup_name, dup_name]

lemma dup_upload (id : Str) (ps1 ps2 : List Period) (sd : Str → Option Str) :
    (prepare_chart_data [⟨some id, ps1⟩, ⟨some id, ps2⟩] sd).upload =
      dupdate
        (dupdate (fun _ => none) (baseName sd id ++ sfx id)
          (siteRow upVal (tsMap ps1) (sortTS (pass1 sd [⟨some id, ps1⟩, ⟨some id, ps2⟩]).all_timestamps)))
        (baseName sd id ++ sfx id)
        (siteRow upVal (tsMap ps2) (sortTS (pass1 sd [⟨some id, ps1⟩, ⟨some id, ps2⟩]).all_timestamps)) := by
  rw [prepare_eq_fold]
  simp only [List.foldl_cons, List.foldl_nil]
  rw [pass2Step_upload, pass2Step_upload, dup_name, dup_name]

lemma dup_packet_loss (id : Str) (ps1 ps2 : List Period) (sd : Str → Option Str) :
    (prepare_chart_data [⟨some id, ps1⟩, ⟨some id, ps2⟩] sd).packet_loss =
      dupdate
        (dupdate (fun _ => none) (baseName sd id ++ sfx id)
          (siteRow plVal (tsMap ps1) (sortTS (pass1 sd [⟨some id, ps1⟩, ⟨some id, ps2⟩]).all_timestamps)))
        (baseName sd id ++ sfx id)
        (siteRow plVal (tsMap ps2) (sortTS (pass1 sd [⟨some id, ps1⟩, ⟨some id, ps2⟩]).all_timestamps)) := by
  rw [prepare_eq_fold]
  simp only [List.foldl_cons, List.foldl_nil]
  rw [pass2Step_packet_loss, pass2Step_packet_loss, dup_name, dup_name]

lemma dup_uptime (id : Str) (ps1 ps2 : List Period) (sd : Str → Option Str) :
    (prepare_chart_data [⟨some id, ps1⟩, ⟨some id, ps2⟩] sd).uptime =
      dupdate
        (dupdate (fun _ => none) (baseName sd id ++ sfx id)
          (siteRow utVal (tsMap ps1) (sortTS (pass1 sd [⟨some id, ps1⟩, ⟨some id, ps2⟩]).all_timestamps)))
        (baseName sd id ++ sfx id)
        (siteRow utVal (tsMap ps2) (sortTS (pass1 sd [⟨some id, ps1⟩, ⟨some id, ps2⟩]).all_timestamps)) := by
  rw [prepare_eq_fold]
  simp only [List.foldl_cons, List.foldl_nil]
  rw [pass2Step_uptime, pass2Step_uptime, dup_name, dup_name]

/-- C9: two records sharing a site identifier get two distinct display names
in `sites`, but the identifier map keeps only the last record's name, so
pass 2 writes all five value sequences only under the last record's display
name (with the last record's data); the earlier record's display name has no
entry in any metric mapping. -/
theorem duplicate_ids_shadow (id : Str) (ps1 ps2 : List Period)
    (sd : Str → Option Str) :
    (prepare_chart_data [⟨some id, ps1⟩, ⟨some id, ps2⟩] sd).sites =
      [baseName sd id, baseName sd id ++ sfx id] ∧
    baseName sd id ≠ baseName sd id ++ sfx id ∧
    (prepare_chart_data [⟨some id, ps1⟩, ⟨some id, ps2⟩] sd).latency (baseName sd id) = none ∧
    (prepare_chart_data [⟨some id, ps1⟩, ⟨some id, ps2⟩] sd).download (baseName sd id) = none ∧
    (prepare_chart_data [⟨some id, ps1⟩, ⟨some id, ps2⟩] sd).upload (baseName sd id) = none ∧
    (prepare_chart_data [⟨some id, ps1⟩, ⟨some id, ps2⟩] sd).packet_loss (baseName sd id) = none ∧
    (prepare_chart_data [⟨some id, ps1⟩, ⟨some id, ps2⟩] sd).uptime (baseName sd id) = none ∧
    (prepare_chart_data [⟨some id, ps1⟩, ⟨some id, ps2⟩] sd).latency (baseName sd id ++ sfx id) =
      some (siteRow latVal (tsMap ps2) (prepare_chart_data [⟨some id, ps1⟩, ⟨some id, ps2⟩] sd).timestamps) ∧
    (prepare_chart_data [⟨some id, ps1⟩, ⟨some id, ps2⟩] sd).download (baseName sd id ++ sfx id) =
      some (siteRow dlVal (tsMap ps2) (prepare_chart_data [⟨some id, ps1⟩, ⟨some id, ps2⟩] sd).timestamps) ∧
    (prepare_chart_data [⟨some id, ps1⟩, ⟨some id, ps2⟩] sd).upload (baseName sd id ++ sfx id) =
      some (siteRow upVal (tsMap ps2) (prepare_chart_data [⟨some id, ps1⟩, ⟨some id, ps2⟩] sd).timestamps) ∧
    (prepare_chart_data [⟨some id, ps1⟩, ⟨some id, ps2⟩] sd).packet_loss (baseName sd id ++ sfx id) =
      some (siteRow plVal (tsMap ps2) (prepare_chart_data [⟨some id, ps1⟩, ⟨some id, ps2⟩] sd).timestamps) ∧
    (prepare_chart_data [⟨some id, ps1⟩, ⟨some id, ps2⟩] sd).uptime (baseName sd id ++ sfx id) =
      some (siteRow utVal (tsMap ps2) (prepare_chart_data [⟨some id, ps1⟩, ⟨some id, ps2⟩] sd).timestamps) := by
  have hne := self_ne_append_sfx (baseName sd id) id
  have hts := prepare_timestamps [⟨some id, ps1⟩, ⟨some id, ps2⟩] sd
  refine ⟨?_, hne, ?_, ?_, ?_, ?_, ?_, ?_, ?_, ?_, ?_, ?_⟩
  · rw [prepare_sites, dup_pairs]
    rfl
  · rw [dup_latency, dupdate_ne _ _ _ _ hne, dupdate_ne _ _ _ _ hne]
  · rw [dup_download, dupdate_ne _ _ _ _ hne, dupdate_ne _ _ _ _ hne]
  · rw [dup_upload, dupdate_ne _ _ _ _ hne, dupdate_ne _ _ _ _ hne]
  · rw [dup_packet_loss, dupdate_ne _ _ _ _ hne, dupdate_ne _ _ _ _ hne]
  · rw [dup_uptime, dupdate_ne _ _ _ _ hne, dupdate_ne _ _ _ _ hne]
  · rw [hts, dup_latency, dupdate_self]
  · rw [hts, dup_download, dupdate_self]
  · rw [hts, dup_upload, dupdate_self]
  · rw [hts, dup_packet_loss, dupdate_self]
  · rw [hts, dup_uptime, dupdate_self]
